import Mathlib

set_option maxHeartbeats 1000000

/-! Verification of the midi-merger core: a shallow embedding of the MIDI
protocol parser (src/software/src/midi_parser.rs) and of the merge step of
the write_uart task (src/software/src/main.rs). Bytes and machine integers
are modelled as Nat (input bytes are values below 256), heapless vectors as
lists together with their capacity checks, and embassy_time instants as Nat
milliseconds: feedByte receives the current time as an explicit argument.
The Option layer on the parser functions models the unwrap calls inside
MidiMessage::from_status_and_data, with none standing for an abort. -/

inductive ParserState where
  | Reading
  | Resyncing
  | InSysEx
  deriving DecidableEq, Repr

inductive MidiMessage where
  | SystemRealtime (bytes : List Nat)
  | RunningStatus (bytes : List Nat)
  | Voice (bytes : List Nat)
  | SystemCommon (bytes : List Nat)
  deriving DecidableEq, Repr

inductive MidiMessageError where
  | UnknownStatus
  | DuplicateStatus
  | UnexpectedDataByte
  | InvalidStatusByte
  deriving DecidableEq, Repr

deriving instance DecidableEq for Except

/-- MidiMessage::from_status_and_data. The two unwrap calls (from_slice into
a capacity-3 vector followed by extend_from_slice) are modelled by the
capacity guard; none models the aborted unwrap. The classification reads the
first byte of the combined vector, which is the head of the status vector
whenever the status vector is nonempty. -/
def fromStatusAndData (status_byte : List Nat) (data_bytes : List Nat) :
    Option (Except MidiMessageError MidiMessage) :=
  if status_byte.length ≤ 3 ∧ status_byte.length + data_bytes.length ≤ 3 then
    let data := status_byte ++ data_bytes
    match status_byte with
    | [] => some (.ok (.RunningStatus data))
    | s :: _ =>
      if 0xF8 ≤ s ∧ s ≤ 0xFF then some (.ok (.SystemRealtime data))
      else if 0x80 ≤ s ∧ s ≤ 0xEF then some (.ok (.Voice data))
      else if (0xF1 ≤ s ∧ s ≤ 0xF3) ∨ s = 0xF6 then some (.ok (.SystemCommon data))
      else some (.error .UnknownStatus)
  else none

/-- Parser state: status accumulator (capacity 1), data accumulator
(capacity 2), expected data length, mode, and timestamp of the last
accepted byte in milliseconds. -/
structure MidiParser where
  status : List Nat
  data : List Nat
  expected_data_bytes : Nat
  state : ParserState
  last_byte_time : Option Nat
  deriving DecidableEq, Repr

/-- Default::default for MidiParser. -/
def MidiParser.default : MidiParser :=
  { status := [], data := [], expected_data_bytes := 2,
    state := .Reading, last_byte_time := none }

/-- MidiParser::clear assigns the default value to self. -/
def MidiParser.clear (_ : MidiParser) : MidiParser := MidiParser.default

/-- MidiParser::reset: clear, then enter Resyncing. -/
def MidiParser.reset (p : MidiParser) : MidiParser :=
  { p.clear with state := .Resyncing }

/-- MidiParser::MIDI_BYTE_TIMEOUT_MS. -/
def MIDI_BYTE_TIMEOUT_MS : Nat := 300

/-- Timeout check at the top of feed_byte, after the realtime shortcut: when
more than 300 ms elapsed since the last accepted byte, clear and enter
Resyncing before processing the byte; otherwise leave the parser alone. -/
def timeoutStep (p : MidiParser) (now : Nat) : MidiParser :=
  match p.last_byte_time with
  | some t =>
    if now - t > MIDI_BYTE_TIMEOUT_MS then { p.clear with state := .Resyncing } else p
  | none => p

/-- Completion check at the end of feed_byte: when the accumulated data
length equals the expected length, build the message and clear; on a
classification error the question-mark operator propagates the error
without clearing. -/
def completeStep (p : MidiParser) :
    Option (MidiParser × Except MidiMessageError (Option MidiMessage)) :=
  if p.data.length = p.expected_data_bytes then
    match fromStatusAndData p.status p.data with
    | none => none
    | some (.error e) => some (p, .error e)
    | some (.ok m) => some (p.clear, .ok (some m))
  else
    some (p, .ok none)

/-- Body of feed_byte reached in the Reading state (and from Resyncing after
a valid status byte): timestamp update, SysEx markers, status-byte
validation and accumulation, data-byte accumulation, completion. -/
def readingStep (p : MidiParser) (now : Nat) (byte : Nat) :
    Option (MidiParser × Except MidiMessageError (Option MidiMessage)) :=
  let p1 : MidiParser := { p with last_byte_time := some now }
  if byte = 0xF0 then
    some ({ p1.clear with state := .InSysEx }, .ok none)
  else if byte = 0xF7 then
    some (p1.clear, .ok none)
  else if byte &&& 0x80 = 0x80 then
    if byte = 0xF4 ∨ byte = 0xF5 ∨ (0xF9 ≤ byte ∧ byte ≤ 0xFD) then
      some ({ p1.clear with state := .Resyncing }, .error .InvalidStatusByte)
    else if p1.status.length < 1 then
      completeStep
        { p1 with
          status := p1.status ++ [byte],
          expected_data_bytes :=
            if byte &&& 0xF0 = 0xC0 ∨ byte &&& 0xF0 = 0xD0 ∨ byte = 0xF1 ∨ byte = 0xF3 then 1
            else if byte = 0xF6 then 0
            else 2 }
    else
      some ({ p1.clear with state := .Resyncing }, .error .DuplicateStatus)
  else
    if p1.data.length < 2 then
      completeStep { p1 with data := p1.data ++ [byte] }
    else
      some ({ p1.clear with state := .Resyncing }, .error .UnexpectedDataByte)

/-- State-machine dispatch of feed_byte after the realtime shortcut and the
timeout check: Resyncing hunts for a valid status byte and falls through to
normal processing on success, InSysEx discards every byte, Reading continues
with normal processing. -/
def processByte (p : MidiParser) (now : Nat) (byte : Nat) :
    Option (MidiParser × Except MidiMessageError (Option MidiMessage)) :=
  match p.state with
  | .Resyncing =>
    if byte &&& 0x80 = 0x80 then
      if byte = 0xF4 ∨ byte = 0xF5 ∨ (0xF9 ≤ byte ∧ byte ≤ 0xFD) then
        some (p, .ok none)
      else
        readingStep { p with state := .Reading } now byte
    else
      some (p, .ok none)
  | .InSysEx => some (p, .ok none)
  | .Reading => readingStep p now byte

/-- MidiParser::feed_byte with the current time passed explicitly. Bytes in
the realtime range are handled before the timeout check and the state
machine; everything else goes through the timeout check and then the
state-machine dispatch. -/
def feedByte (p : MidiParser) (now : Nat) (byte : Nat) :
    Option (MidiParser × Except MidiMessageError (Option MidiMessage)) :=
  if 0xF8 ≤ byte ∧ byte ≤ 0xFF then
    if byte = 0xF9 ∨ byte = 0xFD then
      some ({ p.clear with state := .Resyncing }, .error .InvalidStatusByte)
    else
      match fromStatusAndData [byte] [] with
      | none => none
      | some (.error e) => some (p, .error e)
      | some (.ok m) => some (p, .ok (some m))
  else
    processByte (timeoutStep p now) now byte

/-- Feed a list of bytes in order at a fixed time, collecting the emitted
messages; none propagates an aborted unwrap, parse errors produce no
message. -/
def feedAll : MidiParser → Nat → List Nat → Option (MidiParser × List MidiMessage)
  | p, _, [] => some (p, [])
  | p, now, b :: rest =>
    match feedByte p now b with
    | none => none
    | some (p1, r) =>
      match feedAll p1 now rest with
      | none => none
      | some (p2, ms) =>
        match r with
        | .ok (some m) => some (p2, m :: ms)
        | _ => some (p2, ms)

/-- The two input UARTs of src/software/src/midi_uart.rs. -/
inductive UartChannel where
  | Zero
  | One
  deriving DecidableEq, Repr

/-- Merge state of the write_uart task: last Voice status byte cached per
input channel and the channel that transmitted last. -/
structure UartStatus where
  uart0 : Option Nat
  uart1 : Option Nat
  last_tx_from : Option UartChannel
  deriving DecidableEq, Repr

/-- A parsed MIDI message together with the channel it came from. -/
structure UartMidiMessage where
  message : MidiMessage
  uart_channel : UartChannel
  deriving DecidableEq, Repr

inductive ControlMessage where
  | InvalidateRunningStatus (channel : UartChannel)
  deriving DecidableEq, Repr

inductive ChannelMessage where
  | Midi (m : UartMidiMessage)
  | Control (c : ControlMessage)
  deriving DecidableEq, Repr

/-- One iteration of the write_uart merge loop on one channel message,
assuming every output write succeeds: returns the updated merge state and
the bytes written to the output UART. Voice data is nonempty for every
message the parser produces, so the index-zero access on it is modelled
with headI. -/
def writeStep (s : UartStatus) (m : ChannelMessage) : UartStatus × List Nat :=
  match m with
  | .Control (.InvalidateRunningStatus channel) =>
    let s1 : UartStatus :=
      match channel with
      | .Zero => { s with uart0 := none }
      | .One => { s with uart1 := none }
    let s2 : UartStatus :=
      if s1.last_tx_from = some channel then { s1 with last_tx_from := none } else s1
    (s2, [])
  | .Midi msg =>
    match msg.message with
    | .Voice d =>
      let s1 : UartStatus :=
        match msg.uart_channel with
        | .Zero => { s with uart0 := some d.headI }
        | .One => { s with uart1 := some d.headI }
      ({ s1 with last_tx_from := some msg.uart_channel }, d)
    | .SystemCommon d => ({ s with last_tx_from := some msg.uart_channel }, d)
    | .SystemRealtime d => ({ s with last_tx_from := some msg.uart_channel }, d)
    | .RunningStatus d =>
      let need_status : Bool :=
        match s.last_tx_from with
        | some prev => prev ≠ msg.uart_channel
        | none => true
      if need_status then
        match (match msg.uart_channel with | .Zero => s.uart0 | .One => s.uart1) with
        | some st => ({ s with last_tx_from := some msg.uart_channel }, st :: d)
        | none => (s, [])
      else
        ({ s with last_tx_from := some msg.uart_channel }, d)

/-- C1: on a RunningStatus data message, when the last transmitter is unset
or differs from the message's channel the engine writes that channel's
cached status byte followed by the data bytes, dropping the message with
nothing written and the merge state untouched when no status is cached;
when the last transmitter already equals the channel only the data bytes
are written, with no status prefix. -/
theorem c1_merge_running_status (s : UartStatus) (channel : UartChannel) (d : List Nat) :
    writeStep s (.Midi { message := .RunningStatus d, uart_channel := channel }) =
      if s.last_tx_from = some channel then
        ({ s with last_tx_from := some channel }, d)
      else
        match (match channel with | .Zero => s.uart0 | .One => s.uart1) with
        | some st => ({ s with last_tx_from := some channel }, st :: d)
        | none => (s, []) := by
  cases hl : s.last_tx_from with
  | none => simp [writeStep, hl]
  | some prev =>
    by_cases hc : prev = channel
    · subst hc
      simp [writeStep, hl]
    · simp [writeStep, hl, hc, Option.some_inj]

/-- C4 counterexample: the claim that SystemCommon and SystemRealtime
messages leave the merge state untouched is false: line 182 of main.rs
records the message's channel as last transmitter for every consumed MIDI
message, so a SystemRealtime message from channel One overwrites a last
transmitter of channel Zero. -/
theorem c4_merge_state_is_updated :
    (writeStep { uart0 := none, uart1 := none, last_tx_from := some .Zero }
        (.Midi { message := .SystemRealtime [0xF8], uart_channel := .One })).1 ≠
      { uart0 := none, uart1 := none, last_tx_from := some .Zero } := by decide

/-- C4 (amended): SystemCommon and SystemRealtime messages are written to
the output verbatim and leave the per-channel status cache unchanged, but
the last transmitter is set to the message's channel. -/
theorem c4_system_messages_write_through (s : UartStatus) (channel : UartChannel)
    (d : List Nat) :
    writeStep s (.Midi { message := .SystemCommon d, uart_channel := channel }) =
      ({ s with last_tx_from := some channel }, d) ∧
    writeStep s (.Midi { message := .SystemRealtime d, uart_channel := channel }) =
      ({ s with last_tx_from := some channel }, d) :=
  ⟨rfl, rfl⟩

/-- C8: an Invalidate control event clears the cached status byte of its
channel, clears the last transmitter exactly when it equals that channel,
writes nothing to the output, and processing the same event twice in
succession yields the same merge state as processing it once. -/
theorem c8_invalidate_idempotent (s : UartStatus) (channel : UartChannel) :
    (writeStep s (.Control (.InvalidateRunningStatus channel))).2 = [] ∧
    (match channel with
     | .Zero => (writeStep s (.Control (.InvalidateRunningStatus channel))).1.uart0
     | .One => (writeStep s (.Control (.InvalidateRunningStatus channel))).1.uart1) = none ∧
    (writeStep s (.Control (.InvalidateRunningStatus channel))).1.last_tx_from =
      (if s.last_tx_from = some channel then none else s.last_tx_from) ∧
    writeStep (writeStep s (.Control (.InvalidateRunningStatus channel))).1
        (.Control (.InvalidateRunningStatus channel)) =
      writeStep s (.Control (.InvalidateRunningStatus channel)) := by
  cases channel <;>
    · by_cases hl : s.last_tx_from = some .Zero <;>
        by_cases hl1 : s.last_tx_from = some .One <;>
          simp_all [writeStep]

/-- C2 (code defect): in the InSysEx state the state-machine arm returns
before the exclusive-end handler is reached, so 0xF7 does not return the
parser to Reading: after entering InSysEx via 0xF0, feeding 0xF7 is
discarded like any other byte and the parser is still in InSysEx. -/
theorem c2_sysex_end_does_not_exit :
    feedByte MidiParser.default 0 0xF0 =
      some ({ MidiParser.default with state := .InSysEx }, .ok none) ∧
    feedByte { MidiParser.default with state := .InSysEx } 1 0xF7 =
      some ({ MidiParser.default with state := .InSysEx }, .ok none) := by
  constructor <;> decide

/-- C3 (code defect): the claimed round trip fails on a stream that uses
running status after a one-data-byte status. The stream 0xC0 0x05 0x06 is
built from Voice(0xC0,0x05) followed by RunningStatus(0x06), but the parser
emits only the Voice message and leaves 0x06 pending, because clearing
after a completed message resets the expected data length to two. -/
theorem c3_running_status_after_program_change :
    feedAll MidiParser.default 0 [0xC0, 0x05, 0x06] =
      some ({ status := [], data := [0x06], expected_data_bytes := 2,
              state := .Reading, last_byte_time := some 0 },
            [.Voice [0xC0, 0x05]]) := by decide

/-- C5 counterexample: the claim that a byte in the realtime range leaves
the accumulators unchanged is false for 0xF9: feeding 0xF9 to a parser
holding a staged status byte 0x90 and a data byte 0x40 clears both
accumulators and enters Resyncing. -/
theorem c5_f9_clears_accumulators :
    feedByte { status := [0x90], data := [0x40], expected_data_bytes := 2,
               state := .Reading, last_byte_time := some 0 } 0 0xF9 =
      some ({ MidiParser.default with state := .Resyncing },
            .error .InvalidStatusByte) ∧
    ({ MidiParser.default with state := .Resyncing } : MidiParser).status ≠ [0x90] := by
  constructor <;> decide

/-- C5 (amended): any byte in the realtime range is handled before all
other logic in every parser state: 0xF9 and 0xFD clear the parser and
enter Resyncing with an InvalidStatusByte fault, and every other realtime
byte leaves the parser completely unchanged (accumulators and timeout
timestamp included) and immediately yields a single-byte SystemRealtime
message, so a partly accumulated message is still completable afterward. -/
theorem c5_realtime_preempts (p : MidiParser) (now byte : Nat)
    (h1 : 0xF8 ≤ byte) (h2 : byte ≤ 0xFF) :
    feedByte p now byte =
      if byte = 0xF9 ∨ byte = 0xFD then
        some ({ MidiParser.default with state := .Resyncing },
              .error .InvalidStatusByte)
      else
        some (p, .ok (some (.SystemRealtime [byte]))) := by
  rw [feedByte, if_pos ⟨h1, h2⟩]
  by_cases h : byte = 0xF9 ∨ byte = 0xFD
  · simp [h, MidiParser.clear]
  · rw [if_neg h, if_neg h]
    simp [fromStatusAndData, h1, h2]

/-- Witness for c5_realtime_preempts at byte 0xF8 on a parser holding a
staged status byte. -/
theorem c5_realtime_preempts_witness :
    feedByte { status := [0x90], data := [], expected_data_bytes := 2,
               state := .Reading, last_byte_time := some 0 } 5 0xF8 =
      some ({ status := [0x90], data := [], expected_data_bytes := 2,
              state := .Reading, last_byte_time := some 0 },
            .ok (some (.SystemRealtime [0xF8]))) := by
  have h := c5_realtime_preempts
    { status := [0x90], data := [], expected_data_bytes := 2,
      state := .Reading, last_byte_time := some 0 } 5 0xF8 (by decide) (by decide)
  simpa using h

/-- Reduction of the state-machine dispatch for a parser in Resyncing. -/
theorem processByte_resync_eq (q : MidiParser) (now byte : Nat)
    (hq : q.state = .Resyncing) :
    processByte q now byte =
      if byte &&& 0x80 = 0x80 then
        if byte = 0xF4 ∨ byte = 0xF5 ∨ (0xF9 ≤ byte ∧ byte ≤ 0xFD) then
          some (q, .ok none)
        else readingStep { q with state := .Reading } now byte
      else some (q, .ok none) := by
  unfold processByte
  rw [hq]

/-- C6: a parser in Resyncing discards any byte outside the realtime range
whose top bit is clear and stays in Resyncing; it likewise discards an
undefined status byte (0xF4, 0xF5, or between 0xF9 and 0xFD) and stays in
Resyncing; on any other status byte it exits to Reading and processes that
same byte under the normal Reading rules. -/
theorem c6_resync_hunts_status (p : MidiParser) (now byte : Nat)
    (hs : p.state = .Resyncing) (hb : ¬(0xF8 ≤ byte ∧ byte ≤ 0xFF)) :
    (byte &&& 0x80 = 0 →
       ∃ q, feedByte p now byte = some (q, .ok none) ∧ q.state = .Resyncing) ∧
    ((byte = 0xF4 ∨ byte = 0xF5 ∨ (0xF9 ≤ byte ∧ byte ≤ 0xFD)) →
       ∃ q, feedByte p now byte = some (q, .ok none) ∧ q.state = .Resyncing) ∧
    (byte &&& 0x80 = 0x80 →
       ¬(byte = 0xF4 ∨ byte = 0xF5 ∨ (0xF9 ≤ byte ∧ byte ≤ 0xFD)) →
       feedByte p now byte = feedByte { p with state := .Reading } now byte) := by
  obtain ⟨st, da, ex, sta, lbt⟩ := p
  have hsta : sta = .Resyncing := hs
  subst hsta
  have hfeed : ∀ r : MidiParser,
      feedByte r now byte = processByte (timeoutStep r now) now byte := by
    intro r
    rw [feedByte, if_neg hb]
  have hq : (timeoutStep ⟨st, da, ex, .Resyncing, lbt⟩ now).state = .Resyncing := by
    rcases lbt with _ | t
    · rfl
    · by_cases ht : now - t > MIDI_BYTE_TIMEOUT_MS
      · simp [timeoutStep, ht, MidiParser.clear]
      · simp [timeoutStep, ht]
  refine ⟨fun h0 => ⟨timeoutStep ⟨st, da, ex, .Resyncing, lbt⟩ now, ?_, hq⟩,
          fun h45 => ⟨timeoutStep ⟨st, da, ex, .Resyncing, lbt⟩ now, ?_, hq⟩,
          fun h80 hnot => ?_⟩
  · rw [hfeed, processByte_resync_eq _ now byte hq,
        if_neg (fun hc => by rw [h0] at hc; exact absurd hc (by decide))]
  · rw [hfeed, processByte_resync_eq _ now byte hq]
    rcases h45 with h | h | h
    · subst h
      rw [if_pos (by decide), if_pos (Or.inl rfl)]
    · subst h
      rw [if_pos (by decide), if_pos (Or.inr (Or.inl rfl))]
    · exact absurd ⟨by omega, by omega⟩ hb
  · rw [hfeed, hfeed, processByte_resync_eq _ now byte hq, if_pos h80, if_neg hnot]
    rcases lbt with _ | t
    · rfl
    · by_cases ht : now - t > MIDI_BYTE_TIMEOUT_MS
      · have e1 : timeoutStep ⟨st, da, ex, .Resyncing, some t⟩ now =
            { MidiParser.default with state := .Resyncing } := by
          simp [timeoutStep, ht, MidiParser.clear]
        have e2 : timeoutStep ⟨st, da, ex, .Reading, some t⟩ now =
            { MidiParser.default with state := .Resyncing } := by
          simp [timeoutStep, ht, MidiParser.clear]
        rw [e1, e2, processByte_resync_eq _ now byte rfl, if_pos h80, if_neg hnot]
      · have e1 : timeoutStep ⟨st, da, ex, .Resyncing, some t⟩ now =
            ⟨st, da, ex, .Resyncing, some t⟩ := by
          simp [timeoutStep, ht]
        have e2 : timeoutStep ⟨st, da, ex, .Reading, some t⟩ now =
            ⟨st, da, ex, .Reading, some t⟩ := by
          simp [timeoutStep, ht]
        rw [e1, e2]
        rfl

/-- Witness for c6_resync_hunts_status: a data byte fed in Resyncing is
discarded and the parser stays in Resyncing. -/
theorem c6_resync_hunts_status_witness :
    ∃ q, feedByte { status := [], data := [], expected_data_bytes := 2,
                    state := .Resyncing, last_byte_time := none } 0 0x42 =
      some (q, .ok none) ∧ q.state = .Resyncing :=
  (c6_resync_hunts_status
    { status := [], data := [], expected_data_bytes := 2,
      state := .Resyncing, last_byte_time := none } 0 0x42 rfl (by decide)).1 (by decide)

/-- C7: for a byte outside the realtime range, when a last-accepted-byte
timestamp is set and more than 300 ms elapsed, the parser is cleared into
Resyncing before the byte is processed; when no timestamp is set or the
threshold is not exceeded, no timeout transition occurs and the byte is
processed on the unchanged parser. -/
theorem c7_timeout_check (p : MidiParser) (now byte t : Nat)
    (hb : ¬(0xF8 ≤ byte ∧ byte ≤ 0xFF)) :
    (p.last_byte_time = some t → now - t > 300 →
       feedByte p now byte =
         processByte { status := [], data := [], expected_data_bytes := 2,
                       state := .Resyncing, last_byte_time := none } now byte) ∧
    (p.last_byte_time = none ∨ (p.last_byte_time = some t ∧ now - t ≤ 300) →
       feedByte p now byte = processByte p now byte) := by
  constructor
  · intro hlbt ht
    rw [feedByte, if_neg hb]
    have e : timeoutStep p now =
        { status := [], data := [], expected_data_bytes := 2,
          state := .Resyncing, last_byte_time := none } := by
      simp [timeoutStep, hlbt, MIDI_BYTE_TIMEOUT_MS, ht, MidiParser.clear,
            MidiParser.default]
    rw [e]
  · rintro (hlbt | ⟨hlbt, ht⟩) <;> rw [feedByte, if_neg hb]
    · rw [show timeoutStep p now = p by simp [timeoutStep, hlbt]]
    · have e : timeoutStep p now = p := by
        simp only [timeoutStep, hlbt, MIDI_BYTE_TIMEOUT_MS]
        rw [if_neg (by omega)]
      rw [e]

/-- Witness for c7_timeout_check: a data byte arriving 301 ms after the last
accepted byte is processed from a cleared Resyncing parser. -/
theorem c7_timeout_check_witness :
    feedByte { status := [0x90], data := [], expected_data_bytes := 2,
               state := .Reading, last_byte_time := some 0 } 301 0x40 =
      processByte { status := [], data := [], expected_data_bytes := 2,
                    state := .Resyncing, last_byte_time := none } 301 0x40 :=
  (c7_timeout_check _ 301 0x40 0 (by decide)).1 rfl (by decide)

/-- C9: resetting a parser that is already in Resyncing with empty
accumulators leaves the observable state unchanged: the parser is still in
Resyncing with empty status and data accumulators, and reset composed with
reset equals a single reset. -/
theorem c9_reset_idempotent (p : MidiParser)
    (h1 : p.state = .Resyncing) (h2 : p.status = []) (h3 : p.data = []) :
    p.reset.state = p.state ∧ p.reset.status = p.status ∧ p.reset.data = p.data ∧
    p.reset.reset = p.reset := by
  simp [MidiParser.reset, MidiParser.clear, MidiParser.default, h1, h2, h3]

/-- Witness for c9_reset_idempotent on the cleanly resynced parser. -/
theorem c9_reset_idempotent_witness :
    ({ status := [], data := [], expected_data_bytes := 2,
       state := .Resyncing, last_byte_time := none } : MidiParser).reset.state =
      ({ status := [], data := [], expected_data_bytes := 2,
         state := .Resyncing, last_byte_time := none } : MidiParser).state ∧
    ({ status := [], data := [], expected_data_bytes := 2,
       state := .Resyncing, last_byte_time := none } : MidiParser).reset.status =
      ({ status := [], data := [], expected_data_bytes := 2,
         state := .Resyncing, last_byte_time := none } : MidiParser).status ∧
    ({ status := [], data := [], expected_data_bytes := 2,
       state := .Resyncing, last_byte_time := none } : MidiParser).reset.data =
      ({ status := [], data := [], expected_data_bytes := 2,
         state := .Resyncing, last_byte_time := none } : MidiParser).data ∧
    ({ status := [], data := [], expected_data_bytes := 2,
       state := .Resyncing, last_byte_time := none } : MidiParser).reset.reset =
      ({ status := [], data := [], expected_data_bytes := 2,
         state := .Resyncing, last_byte_time := none } : MidiParser).reset :=
  c9_reset_idempotent _ rfl rfl rfl

/-- The unwraps in from_status_and_data succeed whenever the accumulators
respect their capacities. -/
theorem fromStatusAndData_isSome (status_byte data_bytes : List Nat)
    (h1 : status_byte.length ≤ 1) (h2 : data_bytes.length ≤ 2) :
    ∃ r, fromStatusAndData status_byte data_bytes = some r := by
  rw [fromStatusAndData, if_pos ⟨by omega, by omega⟩]
  cases status_byte with
  | nil => exact ⟨_, rfl⟩
  | cons s rest =>
    dsimp only
    split
    · exact ⟨_, rfl⟩
    · split
      · exact ⟨_, rfl⟩
      · split
        · exact ⟨_, rfl⟩
        · exact ⟨_, rfl⟩

/-- The completion check returns a value and preserves the accumulator
capacities. -/
theorem completeStep_bounds (p : MidiParser)
    (h1 : p.status.length ≤ 1) (h2 : p.data.length ≤ 2) :
    ∃ q r, completeStep p = some (q, r) ∧
      q.status.length ≤ 1 ∧ q.data.length ≤ 2 := by
  rw [completeStep]
  split
  · obtain ⟨r, hr⟩ := fromStatusAndData_isSome p.status p.data h1 h2
    rw [hr]
    cases r with
    | error e => exact ⟨p, _, rfl, h1, h2⟩
    | ok m =>
      exact ⟨p.clear, _, rfl, by simp [MidiParser.clear, MidiParser.default],
        by simp [MidiParser.clear, MidiParser.default]⟩
  · exact ⟨p, _, rfl, h1, h2⟩

/-- The Reading-state body returns a value and preserves the accumulator
capacities. -/
theorem readingStep_bounds (p : MidiParser) (now byte : Nat)
    (h1 : p.status.length ≤ 1) (h2 : p.data.length ≤ 2) :
    ∃ q r, readingStep p now byte = some (q, r) ∧
      q.status.length ≤ 1 ∧ q.data.length ≤ 2 := by
  obtain ⟨st, da, ex, sta, lbt⟩ := p
  simp only [readingStep]
  split
  · exact ⟨_, _, rfl, by simp [MidiParser.clear, MidiParser.default],
      by simp [MidiParser.clear, MidiParser.default]⟩
  · split
    · exact ⟨_, _, rfl, by simp [MidiParser.clear, MidiParser.default],
        by simp [MidiParser.clear, MidiParser.default]⟩
    · split
      · split
        · exact ⟨_, _, rfl, by simp [MidiParser.clear, MidiParser.default],
            by simp [MidiParser.clear, MidiParser.default]⟩
        · split
          · next hlen =>
            exact completeStep_bounds _
              (by dsimp only at hlen ⊢; simp only [List.length_append, List.length_cons, List.length_nil] at hlen ⊢; omega)
              (by dsimp only; exact h2)
          · exact ⟨_, _, rfl, by simp [MidiParser.clear, MidiParser.default],
              by simp [MidiParser.clear, MidiParser.default]⟩
      · split
        · next hlen =>
          exact completeStep_bounds _ (by dsimp only; exact h1)
            (by dsimp only at hlen ⊢; simp only [List.length_append, List.length_cons, List.length_nil] at hlen ⊢; omega)
        · exact ⟨_, _, rfl, by simp [MidiParser.clear, MidiParser.default],
            by simp [MidiParser.clear, MidiParser.default]⟩

/-- The state-machine dispatch returns a value and preserves the
accumulator capacities. -/
theorem processByte_bounds (p : MidiParser) (now byte : Nat)
    (h1 : p.status.length ≤ 1) (h2 : p.data.length ≤ 2) :
    ∃ q r, processByte p now byte = some (q, r) ∧
      q.status.length ≤ 1 ∧ q.data.length ≤ 2 := by
  obtain ⟨st, da, ex, sta, lbt⟩ := p
  cases sta with
  | Reading => exact readingStep_bounds _ now byte h1 h2
  | Resyncing =>
    simp only [processByte]
    split
    · split
      · exact ⟨_, _, rfl, h1, h2⟩
      · exact readingStep_bounds _ now byte h1 h2
    · exact ⟨_, _, rfl, h1, h2⟩
  | InSysEx => exact ⟨_, _, rfl, h1, h2⟩

/-- The timeout check preserves the accumulator capacities. -/
theorem timeoutStep_bounds (p : MidiParser) (now : Nat)
    (h1 : p.status.length ≤ 1) (h2 : p.data.length ≤ 2) :
    (timeoutStep p now).status.length ≤ 1 ∧ (timeoutStep p now).data.length ≤ 2 := by
  obtain ⟨st, da, ex, sta, lbt⟩ := p
  cases lbt with
  | none => exact ⟨h1, h2⟩
  | some t =>
    simp only [timeoutStep]
    split
    · exact ⟨by simp [MidiParser.clear, MidiParser.default],
        by simp [MidiParser.clear, MidiParser.default]⟩
    · exact ⟨h1, h2⟩

/-- feed_byte returns a value and preserves the accumulator capacities. -/
theorem feedByte_bounds (p : MidiParser) (now byte : Nat)
    (h1 : p.status.length ≤ 1) (h2 : p.data.length ≤ 2) :
    ∃ q r, feedByte p now byte = some (q, r) ∧
      q.status.length ≤ 1 ∧ q.data.length ≤ 2 := by
  rw [feedByte]
  split
  · split
    · exact ⟨_, _, rfl, by simp [MidiParser.clear, MidiParser.default],
        by simp [MidiParser.clear, MidiParser.default]⟩
    · obtain ⟨r, hr⟩ := fromStatusAndData_isSome [byte] [] (by simp) (by simp)
      rw [hr]
      cases r with
      | error e => exact ⟨p, _, rfl, h1, h2⟩
      | ok m => exact ⟨p, _, rfl, h1, h2⟩
  · obtain ⟨hb1, hb2⟩ := timeoutStep_bounds p now h1 h2
    exact processByte_bounds _ now byte hb1 hb2

/-- Parser states reachable from the initial parser by any sequence of
feed_byte and reset calls. -/
inductive Reachable : MidiParser → Prop where
  | init : Reachable MidiParser.default
  | reset_step (p : MidiParser) : Reachable p → Reachable p.reset
  | feed_step (p q : MidiParser) (now byte : Nat)
      (r : Except MidiMessageError (Option MidiMessage)) :
      Reachable p → feedByte p now byte = some (q, r) → Reachable q

/-- Every reachable parser state respects the accumulator capacities. -/
theorem reachable_bounds (p : MidiParser) (h : Reachable p) :
    p.status.length ≤ 1 ∧ p.data.length ≤ 2 := by
  induction h with
  | init => exact ⟨by decide, by decide⟩
  | reset_step p hp ih =>
    exact ⟨by simp [MidiParser.reset, MidiParser.clear, MidiParser.default],
      by simp [MidiParser.reset, MidiParser.clear, MidiParser.default]⟩
  | feed_step p q now byte r hp heq ih =>
    obtain ⟨q2, r2, heq2, hb1, hb2⟩ := feedByte_bounds p now byte ih.1 ih.2
    rw [heq] at heq2
    simp only [Option.some.injEq, Prod.mk.injEq] at heq2
    obtain ⟨hqq, -⟩ := heq2
    rw [hqq]
    exact ⟨hb1, hb2⟩

/-- C10: feed_byte is total on every parser state reachable from the
initial parser via feed_byte and reset: the capacity-one status push, the
capacity-two data push, and the unwraps into the capacity-three message
vector inside from_status_and_data never abort, and the call always
returns a parser paired with an ok-some, ok-none, or error result. -/
theorem c10_feed_byte_total (p : MidiParser) (h : Reachable p) (now byte : Nat) :
    (feedByte p now byte).isSome := by
  obtain ⟨h1, h2⟩ := reachable_bounds p h
  obtain ⟨q, r, heq, -, -⟩ := feedByte_bounds p now byte h1 h2
  rw [heq]
  rfl

/-- Witness for c10_feed_byte_total at the initial parser. -/
theorem c10_feed_byte_total_witness :
    (feedByte MidiParser.default 0 0x90).isSome :=
  c10_feed_byte_total MidiParser.default Reachable.init 0 0x90
